import Mathlib

/-!
Shallow embedding of the OCR orchestration core of the pdf-ocr-reader
repository (src/src/hooks/useOcr.js together with the store actions of
src/src/state/useStore.js).

The hook is asynchronous JavaScript running on a single-threaded event
loop.  We embed it as explicit state-passing functions, split at the
suspension points of the source (the `await` of `worker.recognize` inside
`runOcr`, and the `await` of `createWorker` inside `initWorker`):

* `runOcrAdmit`   — the synchronous prefix of `runOcr` (cache check,
                    readiness check, busy check, run startup up to the
                    engine invocation);
* `completeRun`   — the continuation of `runOcr` after the engine call
                    returns (success/failure handling, the `finally`
                    block, and the pending-request drain);
* `initStart` / `initSuccess` / `initFail`
                  — the phases of `initWorker` around the `await` of
                    `createWorker`;
* `onLoggerEvent` — the status-event logger callback passed to
                    `createWorker`.

Machine numbers are embedded as `Nat`/`Int`/`Rat`; the render scale
(`zoom`) is carried in hundredths so that JavaScript's `zoom.toFixed(2)`
is exact.  Engine outcomes are `Except JSVal String`: a thrown value or
the recognized text.  The number of engine invocations is instrumented by
the `engineInputs` field (the surfaces handed to `worker.recognize`,
newest first).
-/

namespace ReadOcr

/-! ## JavaScript values and `errMsg` (useOcr.js lines 24–30) -/

/-- A JavaScript runtime value, as far as `errMsg` can observe it.
For objects we record the `message` property (if any), the result of
`JSON.stringify` (`none` models a serialization that throws), and the
`String(x)` rendering. -/
inductive JSVal where
  | jsNull
  | jsUndef
  | jsBool (b : Bool)
  | jsNum (isNaN : Bool) (q : ℚ)
  | jsStr (s : String)
  | jsObj (message : Option String) (json : Option String) (strRepr : String)
deriving DecidableEq, Repr

/-- JavaScript truthiness: `null`, `undefined`, `false`, `0`, `NaN` and
the empty string are falsy; every object is truthy. -/
def jsTruthy : JSVal → Bool
  | .jsNull => false
  | .jsUndef => false
  | .jsBool b => b
  | .jsNum nan q => !nan && q != 0
  | .jsStr s => s != ""
  | .jsObj _ _ _ => true

/-- `JSON.stringify`; `none` models a throw (e.g. a cyclic object) or an
`undefined` result.  Numeric rendering is abstracted by `toString`. -/
def jsStringify : JSVal → Option String
  | .jsNull => some "null"
  | .jsUndef => none
  | .jsBool b => some (if b then "true" else "false")
  | .jsNum nan q => some (if nan then "null" else toString q)
  | .jsStr s => some ("\"" ++ s ++ "\"")
  | .jsObj _ json _ => json

/-- `String(x)` conversion; for objects the rendering is carried by the
value itself. -/
def jsToString : JSVal → String
  | .jsNull => "null"
  | .jsUndef => "undefined"
  | .jsBool b => if b then "true" else "false"
  | .jsNum nan q => if nan then "NaN" else toString q
  | .jsStr s => s
  | .jsObj _ _ strRepr => strRepr

/-- `errMsg` (useOcr.js lines 25–30): safely convert any thrown value to
a string for logging.  `if (!err) return 'Unknown error'; if (typeof err
=== 'string') return err; if (err.message) return err.message;
try { return JSON.stringify(err) } catch { return String(err) }`. -/
def errMsg (err : JSVal) : String :=
  if !jsTruthy err then "Unknown error"
  else
    match err with
    | .jsStr s => s
    | .jsObj (some m) json strRepr =>
        if m != "" then m else (jsStringify (.jsObj (some m) json strRepr)).getD strRepr
    | e => (jsStringify e).getD (jsToString e)

/-! ## Association lists (the JS object used as the cache, useStore.js) -/

/-- Lookup in an association list; models `obj[key]`, `undefined` being
`none`. -/
def alistGet (l : List (String × String)) (k : String) : Option String :=
  (l.find? (fun p => p.1 == k)).map (fun p => p.2)

/-- `setOcrResult` cache write (useStore.js lines 62–63):
`{ ...s.ocrCache, [key]: text }`.  Prepending is lookup-equivalent to the
object spread (the new binding shadows any older one). -/
def alistSet (l : List (String × String)) (k v : String) : List (String × String) :=
  (k, v) :: l

/-! ## Fingerprints (useOcr.js line 130) -/

/-- JavaScript's `z.toFixed(2)` for a scale carried in hundredths. -/
def toFixed2 (z100 : ℕ) : String :=
  toString (z100 / 100) ++ "." ++
    (if z100 % 100 < 10 then "0" ++ toString (z100 % 100) else toString (z100 % 100))

/-- The cache key `pageNumber:zoom.toFixed(2):ocrLanguage`. -/
def mkCacheKey (pageNumber : ℕ) (zoom100 : ℕ) (lang : String) : String :=
  toString pageNumber ++ ":" ++ toFixed2 zoom100 ++ ":" ++ lang

/-! ## Canvases and the image preprocessor (useOcr.js lines 164–179) -/

/-- A raster surface: width, height, and a content tag.  The
grayscale/contrast drawing of the downscaled copy is a canvas-2D effect
that does not change dimensions; the copy keeps the source's content
tag. -/
structure Canvas where
  width : ℕ
  height : ℕ
  id : ℕ
deriving DecidableEq, Repr

def MAX_OCR_DIM : ℕ := 2400

/-- The downsampling step inside `runOcr`'s try block: if either
dimension exceeds `MAX_OCR_DIM`, draw into an offscreen canvas of size
`floor(width*r) x floor(height*r)` where
`r = min(MAX/width, MAX/height)`; otherwise use the canvas unchanged. -/
def preprocess (c : Canvas) : Canvas :=
  if MAX_OCR_DIM < c.width ∨ MAX_OCR_DIM < c.height then
    let r : ℚ := min ((MAX_OCR_DIM : ℚ) / c.width) ((MAX_OCR_DIM : ℚ) / c.height)
    { width := (⌊(c.width : ℚ) * r⌋).toNat,
      height := (⌊(c.height : ℚ) * r⌋).toNat,
      id := c.id }
  else c

/-! ## Coordinator state -/

/-- The arguments of one `runOcr` call: `(canvas, pageNumber, zoom,
forceRun)`.  `zoom100` is the render scale in hundredths. -/
structure Request where
  canvas : Canvas
  pageNumber : ℕ
  zoom100 : ℕ
  forceRun : Bool
deriving DecidableEq, Repr

/-- The async frame of an in-flight `runOcr` execution: the request plus
the cache key that was computed at admission time (the source captures
`cacheKey` in the closure before awaiting the engine). -/
structure RunFrame where
  req : Request
  cacheKey : String
deriving DecidableEq, Repr

/-- The combined store state and hook refs that the OCR core touches.
`running` is `isRunningRef` together with the live async frame
(`isRunningRef.current` is true exactly while `running` is `some`);
`engineInputs` instruments the surfaces passed to `worker.recognize`. -/
structure OcrState where
  ocrLanguage : String
  ocrCache : List (String × String)
  ocrLoading : Bool
  ocrProgress : ℤ
  workerReady : Bool
  workerInitProgress : ℤ
  workerInitStatus : String
  ocrLog : List String
  workerRef : Bool
  workerReadyRef : Bool
  currentLang : Option String
  pending : Option Request
  running : Option RunFrame
  engineInputs : List Canvas
deriving DecidableEq, Repr

/-- `addOcrLog` (useStore.js lines 77–82): prepend an entry and cap the
log at 50 lines.  The wall-clock timestamp prefix of the source is
environmental and omitted. -/
def addOcrLog (s : OcrState) (message : String) : OcrState :=
  { s with ocrLog := (message :: s.ocrLog).take 50 }

/-- The store's initial session state (useStore.js) with both worker refs
null, as at mount time. -/
def initialState : OcrState :=
  { ocrLanguage := "eng", ocrCache := [], ocrLoading := false, ocrProgress := 0,
    workerReady := false, workerInitProgress := 0, workerInitStatus := "",
    ocrLog := [], workerRef := false, workerReadyRef := false,
    currentLang := none, pending := none, running := none, engineInputs := [] }

/-! ## runOcr — synchronous admission prefix (useOcr.js lines 129–161) -/

/-- The fingerprint of a request in a given state. -/
def reqKey (s : OcrState) (r : Request) : String :=
  mkCacheKey r.pageNumber r.zoom100 s.ocrLanguage

/-- The cache-hit condition of line 133:
`!forceRun && ocrCache[cacheKey] !== undefined`. -/
def cacheHit (s : OcrState) (r : Request) : Bool :=
  !r.forceRun && (alistGet s.ocrCache (reqKey s r)).isSome

/-- The readiness guard of line 138:
`!workerReadyRef.current || !workerRef.current`. -/
def notReady (s : OcrState) : Bool :=
  !s.workerReadyRef || !s.workerRef

/-- What a `runOcr` call does synchronously (before its first `await`). -/
inductive RunResult where
  /-- Returned the cached text (line 135). -/
  | cached (text : String)
  /-- Queued because the worker is not ready; returned `null` (line 144). -/
  | nullQueued
  /-- Queued because a run is in flight; returned `null` (line 150). -/
  | nullBusy
  /-- Entered the try block and invoked the engine; the promise is
  pending. -/
  | started
deriving DecidableEq, Repr

/-- The synchronous prefix of `runOcr` (lines 129–161 and the start of the
try block): cache check, readiness check, busy check, then run startup —
`isRunningRef.current = true`, `setOcrLoading(true)`, `setOcrProgress(0)`,
the start log line, preprocessing, and the engine invocation. -/
def runOcrAdmit (s : OcrState) (r : Request) : OcrState × RunResult :=
  if cacheHit s r then
    (addOcrLog s ("OCR skipped — result cached for page " ++ toString r.pageNumber),
     RunResult.cached ((alistGet s.ocrCache (reqKey s r)).getD ""))
  else if notReady s then
    let s1 := { s with pending := some r }
    let s2 :=
      if r.forceRun then
        addOcrLog s1 ("Force re-running OCR on page " ++ toString r.pageNumber ++
          " (queued — worker not ready)")
      else s1
    (s2, RunResult.nullQueued)
  else if s.running.isSome then
    ({ s with pending := some r }, RunResult.nullBusy)
  else
    let s1 := { s with running := some ⟨r, reqKey s r⟩, ocrLoading := true, ocrProgress := 0 }
    let s2 := addOcrLog s1
      (if r.forceRun then "Force re-running OCR on page " ++ toString r.pageNumber
       else "Starting OCR on page " ++ toString r.pageNumber ++ "…")
    ({ s2 with engineInputs := preprocess r.canvas :: s2.engineInputs }, RunResult.started)

/-! ## runOcr — continuation after the engine call (lines 181–210) -/

/-- JavaScript's `text.trim()`: strip leading and trailing whitespace.
Embedded over the character list so that it evaluates by kernel
reduction. -/
def jsTrim (s : String) : String :=
  String.mk (((s.toList.dropWhile Char.isWhitespace).reverse.dropWhile Char.isWhitespace).reverse)

/-- The tail of the try block and the catch handler, once
`worker.recognize` has settled.  On success the text is trimmed, written
under the captured cache key, and returned; on failure the error is
logged and `null` is returned.  A throw from preprocessing lands in the
same catch and is modelled by an `error` outcome. -/
def afterRecognize (s : OcrState) (fr : RunFrame) (outcome : Except JSVal String) :
    OcrState × Option String :=
  match outcome with
  | Except.ok text =>
      let trimmed := jsTrim text
      let s1 := { s with ocrCache := alistSet s.ocrCache fr.cacheKey trimmed }
      let s2 := addOcrLog s1
        (if 0 < trimmed.length then
          "OCR complete on page " ++ toString fr.req.pageNumber ++ " — " ++
            toString trimmed.length ++ " chars found"
         else "No text found on page " ++ toString fr.req.pageNumber)
      (s2, some trimmed)
  | Except.error err =>
      (addOcrLog s ("Error during OCR on page " ++ toString fr.req.pageNumber ++ ": " ++
        errMsg err), none)

/-- The unconditional assignments of the `finally` block (lines 200–202):
`isRunningRef.current = false; setOcrLoading(false); setOcrProgress(0)`. -/
def finallyResets (s : OcrState) : OcrState :=
  { s with running := none, ocrLoading := false, ocrProgress := 0 }

/-- The whole completion path of an executed run: success/failure
handling, the `finally` resets, and the pending-request drain (lines
205–209) — if a pending request exists it is cleared and `runOcr` is
re-invoked with its contents (fire-and-forget, so only its synchronous
prefix happens before the current call returns). -/
def completeRun (s : OcrState) (fr : RunFrame) (outcome : Except JSVal String) :
    OcrState × Option String :=
  let body := afterRecognize s fr outcome
  let s2 := finallyResets body.1
  match s2.pending with
  | some p => ((runOcrAdmit { s2 with pending := none } p).1, body.2)
  | none => (s2, body.2)

/-- A full `runOcr` call with no interleaved events: the admission
prefix, and — when a run was started — its completion with the given
engine outcome. -/
def runOcr (s : OcrState) (r : Request) (outcome : Except JSVal String) :
    OcrState × Option String :=
  match runOcrAdmit s r with
  | (s1, RunResult.cached t) => (s1, some t)
  | (s1, RunResult.nullQueued) => (s1, none)
  | (s1, RunResult.nullBusy) => (s1, none)
  | (s1, RunResult.started) => completeRun s1 ⟨r, reqKey s r⟩ outcome

/-! ## initWorker (useOcr.js lines 53–111) -/

def LANGUAGE_LABELS : List (String × String) :=
  [("eng", "English"), ("fra", "French"), ("deu", "German"), ("spa", "Spanish"),
   ("ita", "Italian"), ("por", "Portuguese"), ("rus", "Russian"),
   ("chi_sim", "Chinese (Simplified)"), ("chi_tra", "Chinese (Traditional)"),
   ("jpn", "Japanese"), ("kor", "Korean"), ("ara", "Arabic"), ("hin", "Hindi"),
   ("nld", "Dutch"), ("pol", "Polish")]

/-- The prefix of `initWorker(lang)` before the `await` of
`createWorker` (lines 53–64): best-effort teardown of the old worker
(failures swallowed), readiness cleared, progress reset, start log line.
The language change that triggered the re-init is reflected in
`ocrLanguage`. -/
def initStart (s : OcrState) (lang : String) : OcrState :=
  let s1 := if s.workerRef then { s with workerRef := false, workerReadyRef := false } else s
  let s2 := { s1 with ocrLanguage := lang, workerReady := false,
                      workerInitProgress := 0, workerInitStatus := "Starting…" }
  addOcrLog s2 ("Worker initializing for language: " ++
    ((alistGet LANGUAGE_LABELS lang).getD lang) ++ "…")

/-- The success continuation of `initWorker` (lines 88–102): record the
handle, mark ready, reset recognition progress, report 100 "Ready", log,
and — if a request was queued while initializing — clear the pending slot
and schedule exactly one deferred `runOcr` with its contents
(`setTimeout(() => runOcr(c, pn, z, fr), 0)`).  The scheduled request is
returned alongside the state. -/
def initSuccess (s : OcrState) (lang : String) : OcrState × Option Request :=
  let s1 := { s with workerRef := true, workerReadyRef := true, currentLang := some lang,
                     ocrProgress := 0, workerInitProgress := 100,
                     workerInitStatus := "Ready", workerReady := true }
  let s2 := addOcrLog s1 "Worker ready"
  match s2.pending with
  | some p => ({ s2 with pending := none }, some p)
  | none => (s2, none)

/-- The catch handler of `initWorker` (lines 103–109): mark not ready,
report progress 0 with the "Failed" label, log the error message.  No
retry is scheduled. -/
def initFail (s : OcrState) (err : JSVal) : OcrState :=
  let s1 := { s with workerReadyRef := false, workerReady := false,
                     workerInitProgress := 0, workerInitStatus := "Failed" }
  addOcrLog s1 ("Worker init failed: " ++ errMsg err)

/-! ## The status-event logger (useOcr.js lines 14–22 and 68–81) -/

structure InitPhase where
  key : String
  label : String
  fromPct : ℤ
  toPct : ℤ
deriving DecidableEq, Repr

/-- The ordered table mapping Tesseract init status strings to labels and
cumulative progress bands (lines 14–22). -/
def INIT_STATUS_MAP : List InitPhase :=
  [⟨"loading tesseract core", "Loading engine…", 0, 20⟩,
   ⟨"initializing tesseract", "Initializing engine…", 20, 40⟩,
   ⟨"initialized tesseract", "Engine ready", 40, 50⟩,
   ⟨"loading language traineddata", "Loading language data…", 50, 85⟩,
   ⟨"loaded language traineddata", "Language data loaded", 85, 90⟩,
   ⟨"initializing api", "Starting OCR engine…", 90, 99⟩,
   ⟨"initialized api", "OCR engine ready", 99, 99⟩]

/-- Substring containment on character lists (`hay.includes(needle)`). -/
def listInfixOf (needle : List Char) : List Char → Bool
  | [] => needle == []
  | c :: rest => needle.isPrefixOf (c :: rest) || listInfixOf needle rest

/-- JavaScript's `statusKey.includes(key)`. -/
def strContains (hay needle : String) : Bool :=
  listInfixOf needle.toList hay.toList

/-- `Math.round` on an exact rational: round half away from zero is
`⌊q + 1/2⌋` for the non-negative arguments that occur here (JS rounds
half toward positive infinity, which is `⌊q + 1/2⌋` for every q). -/
def jsRound (q : ℚ) : ℤ := ⌊q + 1 / 2⌋

/-- The `logger` callback passed to `createWorker` (lines 68–81).
Recognition events set the recognition progress to
`Math.round(progress * 100)`; any other status is matched
case-insensitively against the phase table and interpolated inside the
phase band with the sub-progress clamped to [0, 1].  Events carry a
numeric sub-progress per the engine protocol; the source's `typeof`
guard substitutes 1 for non-numeric sub-progress and is not exercised by
numeric events. -/
def onLoggerEvent (s : OcrState) (statusStr : String) (fraction : ℚ) : OcrState :=
  if statusStr == "recognizing text" then
    { s with ocrProgress := jsRound (fraction * 100) }
  else
    let statusKey := statusStr.toLower
    match INIT_STATUS_MAP.find? (fun ph => strContains statusKey ph.key) with
    | some ph =>
        let sub := max 0 (min 1 fraction)
        { s with workerInitProgress := jsRound ((ph.fromPct : ℚ) + ((ph.toPct : ℚ) - (ph.fromPct : ℚ)) * sub),
                 workerInitStatus := ph.label }
    | none => s

/-! ## Event-loop semantics -/

deriving instance DecidableEq for Except

/-- The events the coordinator reacts to, each the resumption of one
suspension point (or an external call). -/
inductive Event where
  /-- `runOcr` invoked by a collaborator; only its synchronous prefix
  runs before control returns to the event loop. -/
  | call (r : Request)
  /-- The in-flight `worker.recognize` promise settles. -/
  | finish (outcome : Except JSVal String)
  /-- `initWorker(lang)` starts (language change / mount). -/
  | workerStart (lang : String)
  /-- `createWorker` resolves; the success continuation runs, and the
  deferred replay — if any — fires with nothing scheduled in between. -/
  | workerUp (lang : String)
  /-- `createWorker` rejects. -/
  | workerDown (err : JSVal)
  /-- A status event from the engine reaches the logger callback. -/
  | status (statusStr : String) (fraction : ℚ)
deriving DecidableEq, Repr

/-- One event-loop step. -/
def step (s : OcrState) (e : Event) : OcrState :=
  match e with
  | Event.call r => (runOcrAdmit s r).1
  | Event.finish outcome =>
      match s.running with
      | some fr => (completeRun s fr outcome).1
      | none => s
  | Event.workerStart lang => initStart s lang
  | Event.workerUp lang =>
      let up := initSuccess s lang
      match up.2 with
      | some p => (runOcrAdmit up.1 p).1
      | none => up.1
  | Event.workerDown err => initFail s err
  | Event.status st f => onLoggerEvent s st f

/-- Run a list of events from a state. -/
def stepsF (s : OcrState) : List Event → OcrState
  | [] => s
  | e :: es => stepsF (step s e) es

/-! ## Helper lemmas -/

theorem alistGet_set_self (l : List (String × String)) (k v : String) :
    alistGet (alistSet l k v) k = some v := by
  simp [alistGet, alistSet, List.find?_cons_of_pos]

theorem alistGet_set_ne (l : List (String × String)) (k v k' : String) (h : k' ≠ k) :
    alistGet (alistSet l k v) k' = alistGet l k' := by
  have : ((k, v).1 == k') = false := by simp [bne_iff_ne]; exact fun hc => h hc.symm
  simp [alistGet, alistSet, List.find?_cons_of_neg, this]

theorem addOcrLog_head (s : OcrState) (m : String) :
    (addOcrLog s m).ocrLog.head? = some m := by
  simp [addOcrLog]

theorem runOcrAdmit_hit (s : OcrState) (r : Request) (h : cacheHit s r = true) :
    runOcrAdmit s r =
      (addOcrLog s ("OCR skipped — result cached for page " ++ toString r.pageNumber),
       RunResult.cached ((alistGet s.ocrCache (reqKey s r)).getD "")) := by
  simp [runOcrAdmit, h]

theorem runOcrAdmit_queued (s : OcrState) (r : Request)
    (h1 : cacheHit s r = false) (h2 : notReady s = true) :
    runOcrAdmit s r =
      (if r.forceRun then
        addOcrLog { s with pending := some r }
          ("Force re-running OCR on page " ++ toString r.pageNumber ++
            " (queued — worker not ready)")
       else { s with pending := some r },
       RunResult.nullQueued) := by
  simp only [runOcrAdmit, h1, h2]
  rfl

theorem runOcrAdmit_busy (s : OcrState) (r : Request)
    (h1 : cacheHit s r = false) (h2 : notReady s = false) (h3 : s.running.isSome = true) :
    runOcrAdmit s r = ({ s with pending := some r }, RunResult.nullBusy) := by
  simp [runOcrAdmit, h1, h2, h3]

theorem runOcrAdmit_started (s : OcrState) (r : Request)
    (h1 : cacheHit s r = false) (h2 : notReady s = false) (h3 : s.running = none) :
    runOcrAdmit s r =
      ({ s with running := some ⟨r, reqKey s r⟩, ocrLoading := true, ocrProgress := 0,
                ocrLog := ((if r.forceRun then
                    "Force re-running OCR on page " ++ toString r.pageNumber
                  else "Starting OCR on page " ++ toString r.pageNumber ++ "…") ::
                  s.ocrLog).take 50,
                engineInputs := preprocess r.canvas :: s.engineInputs },
       RunResult.started) := by
  simp [runOcrAdmit, h1, h2, h3, addOcrLog]

/-- Fields the admission prefix never touches, in any branch. -/
theorem runOcrAdmit_preserves (s : OcrState) (r : Request) :
    (runOcrAdmit s r).1.ocrCache = s.ocrCache ∧
    (runOcrAdmit s r).1.ocrLanguage = s.ocrLanguage ∧
    (runOcrAdmit s r).1.workerRef = s.workerRef ∧
    (runOcrAdmit s r).1.workerReadyRef = s.workerReadyRef ∧
    (runOcrAdmit s r).1.workerReady = s.workerReady := by
  rw [runOcrAdmit]
  repeat' split
  all_goals simp [addOcrLog]

/-- When the admission prefix does not start a run (any branch except
`started`), the engine is not invoked and the in-flight state is
untouched. -/
theorem runOcrAdmit_no_start (s : OcrState) (r : Request)
    (h : (runOcrAdmit s r).2 ≠ RunResult.started) :
    (runOcrAdmit s r).1.engineInputs = s.engineInputs ∧
    (runOcrAdmit s r).1.running = s.running := by
  rw [runOcrAdmit] at *
  repeat' split at h
  all_goals first
    | exact absurd rfl h
    | simp_all [addOcrLog]

/-! ## Concrete fixtures for witnesses and counterexamples -/

/-- An 800×600 page render, small enough to skip downsampling. -/
def canvasA : Canvas := { width := 800, height := 600, id := 1 }

/-- `runOcr(canvasA, 1, 1.0, false)`. -/
def reqA : Request := { canvas := canvasA, pageNumber := 1, zoom100 := 100, forceRun := false }

/-- `runOcr(canvasA, 2, 1.0, false)`. -/
def reqB : Request := { canvas := canvasA, pageNumber := 2, zoom100 := 100, forceRun := false }

/-- A state with the worker ready and idle and nothing cached. -/
def readyState : OcrState :=
  { initialState with workerRef := true, workerReadyRef := true, workerReady := true }

/-- A ready state whose cache already holds text for `reqA`'s
fingerprint. -/
def cachedState : OcrState :=
  { readyState with ocrCache := [("1:1.00:eng", "hi")] }

/-! ## C10 — errMsg totality and case analysis -/

/-- C10 counterexample: the claim says a string input is returned
unchanged, but the empty string is falsy in JavaScript, so `errMsg("")`
returns "Unknown error", not the input. -/
theorem c10_counterexample :
    errMsg (JSVal.jsStr "") = "Unknown error" ∧ errMsg (JSVal.jsStr "") ≠ "" := by
  decide

/-- C10 (amended): `errMsg` is total; every falsy input (null, undefined,
false, 0, NaN, and also the empty string) yields "Unknown error"; a
non-empty string is returned unchanged; a value with a truthy `message`
field yields that message; any other object yields the guarded
`JSON.stringify` result, falling back to `String(err)` when
serialization throws. -/
theorem c10_errMsg_cases :
    (∀ v : JSVal, jsTruthy v = false → errMsg v = "Unknown error") ∧
    (∀ s : String, s ≠ "" → errMsg (JSVal.jsStr s) = s) ∧
    (∀ (m : String) (j : Option String) (sr : String), m ≠ "" →
      errMsg (JSVal.jsObj (some m) j sr) = m) ∧
    (∀ (j : Option String) (sr : String), errMsg (JSVal.jsObj none j sr) = j.getD sr) ∧
    (∀ (j : Option String) (sr : String), errMsg (JSVal.jsObj (some "") j sr) = j.getD sr) ∧
    (∀ (sr : String), errMsg (JSVal.jsObj none none sr) = sr) := by
  refine ⟨?_, ?_, ?_, ?_, ?_, ?_⟩
  · intro v h; simp [errMsg, h]
  · intro s h; simp [errMsg, jsTruthy, h]
  · intro m j sr h; simp [errMsg, jsTruthy, h]
  · intro j sr; simp [errMsg, jsTruthy, jsStringify, jsToString]
  · intro j sr; simp [errMsg, jsTruthy, jsStringify, jsToString]
  · intro sr; simp [errMsg, jsTruthy, jsStringify, jsToString]

/-- C10 witness: the amended case analysis evaluated at concrete inputs. -/
theorem c10_witness :
    errMsg JSVal.jsNull = "Unknown error" ∧
    errMsg (JSVal.jsStr "boom") = "boom" ∧
    errMsg (JSVal.jsObj (some "oops") none "o") = "oops" ∧
    errMsg (JSVal.jsObj none none "[object Object]") = "[object Object]" := by
  have h := c10_errMsg_cases
  exact ⟨h.1 JSVal.jsNull (by decide), h.2.1 "boom" (by decide),
         h.2.2.1 "oops" none "o" (by decide), h.2.2.2.2.2 "[object Object]"⟩

/-! ## C7 — recognition progress -/

/-- C7: for a "recognizing text" status event with sub-progress fraction
in [0, 1], the recognition progress becomes `round(fraction * 100)`,
which coincides with that value clamped to [0, 100]. -/
theorem c7_recognition_progress (s : OcrState) (f : ℚ) (h0 : 0 ≤ f) (h1 : f ≤ 1) :
    (onLoggerEvent s "recognizing text" f).ocrProgress = jsRound (f * 100) ∧
    (onLoggerEvent s "recognizing text" f).ocrProgress
      = min 100 (max 0 (jsRound (f * 100))) := by
  have hL : (0 : ℤ) ≤ jsRound (f * 100) := by
    rw [jsRound]
    apply Int.le_floor.mpr
    push_cast
    nlinarith
  have hU : jsRound (f * 100) ≤ 100 := by
    rw [jsRound]
    have hlt : (f * 100 + 1 / 2 : ℚ) < 101 := by nlinarith
    have := Int.floor_lt.mpr (by push_cast; linarith : (f * 100 + 1 / 2 : ℚ) < ((101 : ℤ) : ℚ))
    omega
  have hev : (onLoggerEvent s "recognizing text" f).ocrProgress = jsRound (f * 100) := by
    simp [onLoggerEvent]
  refine ⟨hev, ?_⟩
  rw [hev]
  omega

/-- C7 witness: a concrete recognition event at fraction 1/2 yields
progress 50 (equal to its clamped value). -/
theorem c7_witness :
    (onLoggerEvent initialState "recognizing text" (1 / 2)).ocrProgress
      = min 100 (max 0 (jsRound ((1 / 2) * 100))) ∧
    (onLoggerEvent initialState "recognizing text" (1 / 2)).ocrProgress = 50 := by
  have h := c7_recognition_progress initialState (1 / 2) (by norm_num) (by norm_num)
  refine ⟨h.2, ?_⟩
  rw [h.1, jsRound]
  norm_num

/-! ## C8 — image preprocessor -/

theorem mul_le_of_le_div_bound (a m c : ℚ) (ha : 0 < a) (hm : m ≤ c / a) : a * m ≤ c := by
  rw [le_div_iff₀ ha] at hm
  linarith

/-- C8: a surface within the 2400 bound in both dimensions is returned
unchanged; otherwise the output is exactly `floor(width*r) x
floor(height*r)` for `r = min(2400/width, 2400/height)`, and in that case
both output dimensions are at most 2400. -/
theorem c8_preprocess (c : Canvas) (hw : 0 < c.width) (hh : 0 < c.height) :
    (c.width ≤ MAX_OCR_DIM ∧ c.height ≤ MAX_OCR_DIM → preprocess c = c) ∧
    (MAX_OCR_DIM < c.width ∨ MAX_OCR_DIM < c.height →
      (preprocess c).width =
        (⌊(c.width : ℚ) *
          min ((MAX_OCR_DIM : ℚ) / c.width) ((MAX_OCR_DIM : ℚ) / c.height)⌋).toNat ∧
      (preprocess c).height =
        (⌊(c.height : ℚ) *
          min ((MAX_OCR_DIM : ℚ) / c.width) ((MAX_OCR_DIM : ℚ) / c.height)⌋).toNat ∧
      max (preprocess c).width (preprocess c).height ≤ MAX_OCR_DIM) := by
  constructor
  · rintro ⟨h1, h2⟩
    rw [preprocess, if_neg]
    push_neg
    omega
  · intro hbig
    rw [preprocess, if_pos hbig]
    refine ⟨rfl, rfl, ?_⟩
    have hwQ : (0 : ℚ) < c.width := by exact_mod_cast hw
    have hhQ : (0 : ℚ) < c.height := by exact_mod_cast hh
    have hwB : (c.width : ℚ) *
        min ((MAX_OCR_DIM : ℚ) / c.width) ((MAX_OCR_DIM : ℚ) / c.height) ≤ MAX_OCR_DIM :=
      mul_le_of_le_div_bound _ _ _ hwQ (min_le_left _ _)
    have hhB : (c.height : ℚ) *
        min ((MAX_OCR_DIM : ℚ) / c.width) ((MAX_OCR_DIM : ℚ) / c.height) ≤ MAX_OCR_DIM :=
      mul_le_of_le_div_bound _ _ _ hhQ (min_le_right _ _)
    have hwF := Int.floor_le_floor hwB
    have hhF := Int.floor_le_floor hhB
    rw [show ((MAX_OCR_DIM : ℚ)) = ((MAX_OCR_DIM : ℕ) : ℚ) from rfl, Int.floor_natCast]
      at hwF hhF
    exact Nat.max_le.mpr ⟨Int.toNat_le.mpr hwF, Int.toNat_le.mpr hhF⟩

/-- C8 witness: a 5000×3000 surface downsamples to exactly 2400×1440
(both floors of the uniform ratio 12/25), and a 1000×800 surface is
returned unchanged. -/
theorem c8_witness :
    preprocess { width := 5000, height := 3000, id := 0 } =
      { width := 2400, height := 1440, id := 0 } ∧
    max (preprocess { width := 5000, height := 3000, id := 0 }).width
        (preprocess { width := 5000, height := 3000, id := 0 }).height ≤ MAX_OCR_DIM ∧
    preprocess { width := 1000, height := 800, id := 7 } =
      { width := 1000, height := 800, id := 7 } := by
  refine ⟨?_, ?_, ?_⟩
  · rw [preprocess]
    norm_num [MAX_OCR_DIM]
    exact ⟨rfl, rfl⟩
  · exact ((c8_preprocess { width := 5000, height := 3000, id := 0 }
      (by norm_num) (by norm_num)).2 (by norm_num [MAX_OCR_DIM])).2.2
  · exact (c8_preprocess { width := 1000, height := 800, id := 7 }
      (by norm_num) (by norm_num)).1 ⟨by norm_num [MAX_OCR_DIM], by norm_num [MAX_OCR_DIM]⟩

/-! ## C1 — cache hit and idempotence -/

theorem runOcr_hit (s : OcrState) (r : Request) (out : Except JSVal String)
    (h : cacheHit s r = true) :
    runOcr s r out =
      (addOcrLog s ("OCR skipped — result cached for page " ++ toString r.pageNumber),
       some ((alistGet s.ocrCache (reqKey s r)).getD "")) := by
  simp [runOcr, runOcrAdmit_hit s r h]

theorem runOcr_started_eq (s : OcrState) (r : Request) (out : Except JSVal String)
    (h1 : cacheHit s r = false) (h2 : notReady s = false) (h3 : s.running = none) :
    runOcr s r out =
      completeRun
        { s with running := some ⟨r, reqKey s r⟩, ocrLoading := true, ocrProgress := 0,
                 ocrLog := ((if r.forceRun then
                     "Force re-running OCR on page " ++ toString r.pageNumber
                   else "Starting OCR on page " ++ toString r.pageNumber ++ "…") ::
                   s.ocrLog).take 50,
                 engineInputs := preprocess r.canvas :: s.engineInputs }
        ⟨r, reqKey s r⟩ out := by
  simp [runOcr, runOcrAdmit_started s r h1 h2 h3]

/-- A non-force call whose fingerprint is cached returns the cached
value and does not touch the engine. -/
theorem runOcr_hit_value (s : OcrState) (r : Request) (out : Except JSVal String) (v : String)
    (hforce : r.forceRun = false) (hv : alistGet s.ocrCache (reqKey s r) = some v) :
    (runOcr s r out).2 = some v ∧ (runOcr s r out).1.engineInputs = s.engineInputs := by
  have hch : cacheHit s r = true := by simp [cacheHit, hforce, hv]
  rw [runOcr_hit s r out hch]
  simp [hv, addOcrLog]

/-- C1: with the engine ready and idle and `forceRun = false`: (a) if the
cache already holds an entry for the request's fingerprint, the call
returns that value with no engine invocation and no cache change; (b)
after a first call that misses the cache and succeeds with `text`, a
second identical call returns the cached trimmed text from the cache, and
across both calls the engine was invoked exactly once. -/
theorem c1_cache_idempotence (s : OcrState) (r : Request) (text : String)
    (out2 : Except JSVal String)
    (hready : notReady s = false) (hidle : s.running = none) (hpend : s.pending = none)
    (hforce : r.forceRun = false) :
    (∀ v, alistGet s.ocrCache (reqKey s r) = some v →
      (runOcr s r out2).2 = some v ∧
      (runOcr s r out2).1.engineInputs = s.engineInputs ∧
      (runOcr s r out2).1.ocrCache = s.ocrCache) ∧
    (alistGet s.ocrCache (reqKey s r) = none →
      (runOcr s r (Except.ok text)).2 = some (jsTrim text) ∧
      (runOcr (runOcr s r (Except.ok text)).1 r out2).2 = some (jsTrim text) ∧
      (runOcr (runOcr s r (Except.ok text)).1 r out2).1.engineInputs.length
        = s.engineInputs.length + 1) := by
  constructor
  · intro v hv
    have hch : cacheHit s r = true := by simp [cacheHit, hforce, hv]
    rw [runOcr_hit s r out2 hch]
    simp [hv, addOcrLog]
  · intro hnone
    have hch : cacheHit s r = false := by simp [cacheHit, hforce, hnone]
    rw [runOcr_started_eq s r (Except.ok text) hch hready hidle]
    simp only [completeRun, afterRecognize, finallyResets, addOcrLog, hforce, Bool.false_eq_true,
      if_false, hpend]
    refine ⟨trivial, ?_, ?_⟩
    · exact (runOcr_hit_value _ r out2 _ hforce (alistGet_set_self _ _ _)).1
    · rw [(runOcr_hit_value _ r out2 _ hforce (alistGet_set_self _ _ _)).2]
      simp


/-- C1 witness: concrete evaluations — a cached "hi" is returned as-is;
a miss followed by an identical call returns the trimmed text "x" twice
with exactly one engine invocation. -/
theorem c1_witness :
    (runOcr cachedState reqA (Except.ok "zz")).2 = some "hi" ∧
    (runOcr readyState reqA (Except.ok " x ")).2 = some "x" ∧
    (runOcr (runOcr readyState reqA (Except.ok " x ")).1 reqA (Except.ok "zz")).2 = some "x" ∧
    (runOcr (runOcr readyState reqA (Except.ok " x ")).1 reqA
      (Except.ok "zz")).1.engineInputs.length = readyState.engineInputs.length + 1 := by
  have htr : jsTrim " x " = "x" := by decide
  have h1 := c1_cache_idempotence cachedState reqA " x " (Except.ok "zz")
    (by decide) (by decide) (by decide) (by decide)
  have h2 := (c1_cache_idempotence readyState reqA " x " (Except.ok "zz")
    (by decide) (by decide) (by decide) (by decide)).2 (by decide)
  rw [htr] at h2
  exact ⟨(h1.1 "hi" (by decide)).1, h2.1, h2.2.1, h2.2.2⟩

/-! ## C3 — error handling of an executed run -/

/-- C3: a call that proceeds to execution and whose preprocessing or
recognition throws returns `null` instead of propagating the error, logs
a human-readable message, and writes nothing to the cache — the cache
after the call is exactly the cache before it. -/
theorem c3_error_handling (s : OcrState) (r : Request) (err : JSVal)
    (hnc : cacheHit s r = false) (hready : notReady s = false)
    (hidle : s.running = none) (hpend : s.pending = none) :
    (runOcr s r (Except.error err)).2 = none ∧
    (runOcr s r (Except.error err)).1.ocrCache = s.ocrCache ∧
    (runOcr s r (Except.error err)).1.ocrLog.head? =
      some ("Error during OCR on page " ++ toString r.pageNumber ++ ": " ++ errMsg err) := by
  rw [runOcr_started_eq s r (Except.error err) hnc hready hidle]
  simp [completeRun, afterRecognize, finallyResets, addOcrLog, hpend]

/-- C3 witness: a concrete failed run (thrown `Error` object with message
"net down") returns `null`, leaves the empty cache empty, and logs the
message. -/
theorem c3_witness :
    (runOcr readyState reqA (Except.error (JSVal.jsObj (some "net down") none "E"))).2
      = none ∧
    (runOcr readyState reqA (Except.error (JSVal.jsObj (some "net down") none "E"))).1.ocrCache
      = readyState.ocrCache ∧
    (runOcr readyState reqA
        (Except.error (JSVal.jsObj (some "net down") none "E"))).1.ocrLog.head?
      = some "Error during OCR on page 1: net down" := by
  have h := c3_error_handling readyState reqA (JSVal.jsObj (some "net down") none "E")
    (by decide) (by decide) (by decide) (by decide)
  refine ⟨h.1, h.2.1, ?_⟩
  rw [h.2.2]
  decide


/-! ## C4 — queueing while not ready, replay on ready -/

/-- While the worker is not ready, an admission never starts a run. -/
theorem runOcrAdmit_notReady_result (s : OcrState) (r : Request) (h2 : notReady s = true) :
    (runOcrAdmit s r).2 ≠ RunResult.started := by
  cases hch : cacheHit s r
  · rw [runOcrAdmit_queued s r hch h2]
    intro hc
    cases hc
  · rw [runOcrAdmit_hit s r hch]
    intro hc
    cases hc

/-- Call events cannot make the worker ready, touch its cache or
language, or reach the engine. -/
theorem stepsCalls_notReady (rs : List Request) (s : OcrState)
    (h : s.workerReadyRef = false) :
    (stepsF s (rs.map Event.call)).workerReadyRef = false ∧
    (stepsF s (rs.map Event.call)).engineInputs = s.engineInputs ∧
    (stepsF s (rs.map Event.call)).ocrCache = s.ocrCache ∧
    (stepsF s (rs.map Event.call)).ocrLanguage = s.ocrLanguage := by
  induction rs generalizing s with
  | nil => exact ⟨h, rfl, rfl, rfl⟩
  | cons r rs ih =>
      have hnr : notReady s = true := by simp [notReady, h]
      have hpres := runOcrAdmit_preserves s r
      have hns := runOcrAdmit_no_start s r (runOcrAdmit_notReady_result s r hnr)
      have hready2 : (runOcrAdmit s r).1.workerReadyRef = false := by
        rw [hpres.2.2.2.1]; exact h
      have hrec := ih (runOcrAdmit s r).1 hready2
      simp only [List.map, stepsF, step] at hrec ⊢
      exact ⟨hrec.1, hrec.2.1.trans hns.1, hrec.2.2.1.trans hpres.1,
             hrec.2.2.2.trans hpres.2.1⟩

/-- A not-ready, non-cached admission: queued as the sole pending
request, `null` result, engine untouched, logged only under `forceRun`. -/
theorem runOcrAdmit_queued_facts (s : OcrState) (r : Request)
    (h1 : cacheHit s r = false) (h2 : notReady s = true) :
    (runOcrAdmit s r).2 = RunResult.nullQueued ∧
    (runOcrAdmit s r).1.pending = some r ∧
    (runOcrAdmit s r).1.engineInputs = s.engineInputs ∧
    (runOcrAdmit s r).1.running = s.running ∧
    (r.forceRun = true → (runOcrAdmit s r).1.ocrLog.head? =
      some ("Force re-running OCR on page " ++ toString r.pageNumber ++
        " (queued — worker not ready)")) ∧
    (r.forceRun = false → (runOcrAdmit s r).1.ocrLog = s.ocrLog) := by
  rw [runOcrAdmit_queued s r h1 h2]
  cases hf : r.forceRun <;> simp [hf, addOcrLog]

/-- C4: a call finding the worker not ready (and not served from the
cache) stores its arguments as the sole pending request, logs only when
`forceRun` is true, does not touch the engine, and returns `null`; and
when the worker then becomes ready with a pending request present, that
request is cleared from the slot and exactly one deferred `runOcr` call
with its contents is scheduled (not yet executed). -/
theorem c4_queue_and_replay :
    (∀ (s : OcrState) (r : Request), cacheHit s r = false → notReady s = true →
      (runOcrAdmit s r).2 = RunResult.nullQueued ∧
      (runOcrAdmit s r).1.pending = some r ∧
      (runOcrAdmit s r).1.engineInputs = s.engineInputs ∧
      (runOcrAdmit s r).1.running = s.running ∧
      (r.forceRun = true → (runOcrAdmit s r).1.ocrLog.head? =
        some ("Force re-running OCR on page " ++ toString r.pageNumber ++
          " (queued — worker not ready)")) ∧
      (r.forceRun = false → (runOcrAdmit s r).1.ocrLog = s.ocrLog)) ∧
    (∀ (s : OcrState) (lang : String) (p : Request), s.pending = some p →
      (initSuccess s lang).2 = some p ∧
      (initSuccess s lang).1.pending = none ∧
      (initSuccess s lang).1.workerReadyRef = true ∧
      (initSuccess s lang).1.workerRef = true ∧
      (initSuccess s lang).1.engineInputs = s.engineInputs) := by
  constructor
  · intro s r h1 h2
    exact runOcrAdmit_queued_facts s r h1 h2
  · intro s lang p hp
    simp [initSuccess, addOcrLog, hp]

/-- C4 witness: at the initial (never-initialized) state, `reqA` is
queued silently and `null`-like; once the worker comes up the queued
request is scheduled exactly once and the slot is cleared. -/
theorem c4_witness :
    (runOcrAdmit initialState reqA).2 = RunResult.nullQueued ∧
    (runOcrAdmit initialState reqA).1.pending = some reqA ∧
    (runOcrAdmit initialState reqA).1.ocrLog = initialState.ocrLog ∧
    (initSuccess { initialState with pending := some reqA } "eng").2 = some reqA ∧
    (initSuccess { initialState with pending := some reqA } "eng").1.pending = none := by
  have h1 := c4_queue_and_replay.1 initialState reqA (by decide) (by decide)
  have h2 := c4_queue_and_replay.2 { initialState with pending := some reqA } "eng" reqA rfl
  exact ⟨h1.1, h1.2.1, h1.2.2.2.2.2 rfl, h2.1, h2.2.1⟩

/-! ## C9 — engine initialization failure -/

/-- C9: when engine creation rejects, readiness is false, initialization
progress is recorded as 0 with the "Failed" label, the error message is
logged; no retry is scheduled, and under any sequence of subsequent
`runOcr` calls the worker stays not-ready and the engine is never
invoked — each such call that is not served from the cache is queued as
the sole pending request and returns `null` — until an explicit
re-initialization succeeds (which is the only transition setting the
readiness ref). -/
theorem c9_init_failure (s : OcrState) (err : JSVal) :
    (initFail s err).workerReady = false ∧
    (initFail s err).workerReadyRef = false ∧
    (initFail s err).workerInitProgress = 0 ∧
    (initFail s err).workerInitStatus = "Failed" ∧
    (initFail s err).ocrLog.head? = some ("Worker init failed: " ++ errMsg err) ∧
    (∀ rs : List Request,
      (stepsF (initFail s err) (rs.map Event.call)).workerReadyRef = false ∧
      (stepsF (initFail s err) (rs.map Event.call)).engineInputs = s.engineInputs) ∧
    (∀ (rs : List Request) (r : Request),
      cacheHit (stepsF (initFail s err) (rs.map Event.call)) r = false →
      (runOcrAdmit (stepsF (initFail s err) (rs.map Event.call)) r).2
        = RunResult.nullQueued ∧
      (runOcrAdmit (stepsF (initFail s err) (rs.map Event.call)) r).1.pending = some r ∧
      (runOcrAdmit (stepsF (initFail s err) (rs.map Event.call)) r).1.engineInputs
        = s.engineInputs) ∧
    (∀ (s2 : OcrState) (lang : String), (initSuccess s2 lang).1.workerReadyRef = true) := by
  have hrdy : (initFail s err).workerReadyRef = false := by simp [initFail, addOcrLog]
  have hengine : (initFail s err).engineInputs = s.engineInputs := by
    simp [initFail, addOcrLog]
  refine ⟨by simp [initFail, addOcrLog], hrdy, by simp [initFail, addOcrLog],
    by simp [initFail, addOcrLog], by simp [initFail, addOcrLog], ?_, ?_, ?_⟩
  · intro rs
    have h := stepsCalls_notReady rs (initFail s err) hrdy
    exact ⟨h.1, h.2.1.trans hengine⟩
  · intro rs r hch
    have h := stepsCalls_notReady rs (initFail s err) hrdy
    have hnr : notReady (stepsF (initFail s err) (rs.map Event.call)) = true := by
      simp [notReady, h.1]
    have hq := runOcrAdmit_queued_facts _ r hch hnr
    exact ⟨hq.1, hq.2.1, hq.2.2.1.trans (h.2.1.trans hengine)⟩
  · intro s2 lang
    rw [initSuccess]
    split <;> simp [addOcrLog]

/-- C9 witness: a concrete failed initialization at the initial state,
followed by one call for `reqB` and then an admission of `reqA`. -/
theorem c9_witness :
    (initFail initialState (JSVal.jsStr "no wasm")).workerInitStatus = "Failed" ∧
    (initFail initialState (JSVal.jsStr "no wasm")).ocrLog.head?
      = some "Worker init failed: no wasm" ∧
    (runOcrAdmit (stepsF (initFail initialState (JSVal.jsStr "no wasm"))
        ([reqB].map Event.call)) reqA).2 = RunResult.nullQueued ∧
    (runOcrAdmit (stepsF (initFail initialState (JSVal.jsStr "no wasm"))
        ([reqB].map Event.call)) reqA).1.pending = some reqA := by
  have h := c9_init_failure initialState (JSVal.jsStr "no wasm")
  have hq := h.2.2.2.2.2.2.1 [reqB] reqA (by decide)
  exact ⟨h.2.2.2.1, h.2.2.2.2.1, hq.1, hq.2.1⟩


/-! ## C5 — completion always resets and drains at most one request -/

theorem afterRecognize_pending (s : OcrState) (fr : RunFrame) (out : Except JSVal String) :
    (afterRecognize s fr out).1.pending = s.pending := by
  cases out <;> simp [afterRecognize, addOcrLog]

/-- If recognition progress is already 0, no admission branch changes it
(the started branch re-sets it to 0). -/
theorem runOcrAdmit_progress_zero (s : OcrState) (r : Request) (h : s.ocrProgress = 0) :
    (runOcrAdmit s r).1.ocrProgress = 0 := by
  rw [runOcrAdmit]
  repeat' split
  all_goals simp_all [addOcrLog]

/-- C5: on every completion of an executed run, success or failure, the
in-flight flag is cleared, loading is cleared and recognition progress is
reset to 0; if no request is pending, that reset state is the final
state; if a request `p` is pending, the final state is exactly the
result of one re-invocation of `runOcr` with `p`'s contents from the
reset state with the pending slot already cleared (and the overall
recognition progress still ends at 0, whatever that re-invocation does). -/
theorem c5_completion_drain (s : OcrState) (fr : RunFrame) (out : Except JSVal String) :
    (completeRun s fr out).1.ocrProgress = 0 ∧
    (s.pending = none →
      (completeRun s fr out).1 = finallyResets (afterRecognize s fr out).1 ∧
      (completeRun s fr out).1.running = none ∧
      (completeRun s fr out).1.ocrLoading = false ∧
      (completeRun s fr out).1.pending = none) ∧
    (∀ p, s.pending = some p →
      (completeRun s fr out).1 =
        (runOcrAdmit
          { finallyResets (afterRecognize s fr out).1 with pending := none } p).1 ∧
      ({ finallyResets (afterRecognize s fr out).1 with
          pending := none } : OcrState).running = none ∧
      ({ finallyResets (afterRecognize s fr out).1 with
          pending := none } : OcrState).ocrProgress = 0 ∧
      ({ finallyResets (afterRecognize s fr out).1 with
          pending := none } : OcrState).ocrLoading = false) := by
  have hpend : (finallyResets (afterRecognize s fr out).1).pending = s.pending := by
    simp [finallyResets, afterRecognize_pending]
  refine ⟨?_, ?_, ?_⟩
  · rw [completeRun]
    cases hp : (finallyResets (afterRecognize s fr out).1).pending with
    | none => simp only [hp]; simp [finallyResets]
    | some p =>
        simp only [hp]
        exact runOcrAdmit_progress_zero _ p (by simp [finallyResets])
  · intro hnone
    rw [completeRun]
    simp only [hpend, hnone]
    simp [finallyResets, afterRecognize_pending, hnone]
  · intro p hp
    rw [completeRun]
    simp only [hpend, hp]
    simp [finallyResets]

/-- A ready state mid-run on `reqA` with `reqB` parked in the pending
slot. -/
def runBusyState : OcrState :=
  { readyState with running := some ⟨reqA, "1:1.00:eng"⟩, pending := some reqB,
                    ocrLoading := true, ocrProgress := 37 }

/-- C5 witness: completing the in-flight run of `runBusyState` resets
progress to 0 and hands exactly the cleared reset state to one
re-invocation with `reqB`. -/
theorem c5_witness :
    (completeRun runBusyState ⟨reqA, "1:1.00:eng"⟩ (Except.ok "t")).1.ocrProgress = 0 ∧
    (completeRun runBusyState ⟨reqA, "1:1.00:eng"⟩ (Except.ok "t")).1 =
      (runOcrAdmit
        { finallyResets
            (afterRecognize runBusyState ⟨reqA, "1:1.00:eng"⟩ (Except.ok "t")).1 with
          pending := none } reqB).1 := by
  have h := c5_completion_drain runBusyState ⟨reqA, "1:1.00:eng"⟩ (Except.ok "t")
  exact ⟨h.1, (h.2.2 reqB rfl).1⟩


/-! ## C2 — at most one in flight, latest-wins coalescing -/

/-- The admissions of a burst of `runOcr` calls, in order, with the
per-call synchronous results. -/
def admitFold : OcrState → List Request → OcrState × List RunResult
  | s, [] => (s, [])
  | s, r :: rs =>
      let first := runOcrAdmit s r
      let rest := admitFold first.1 rs
      (rest.1, first.2 :: rest.2)

theorem admitFold_cons (s : OcrState) (r : Request) (rs : List Request) :
    admitFold s (r :: rs) =
      ((admitFold (runOcrAdmit s r).1 rs).1,
       (runOcrAdmit s r).2 :: (admitFold (runOcrAdmit s r).1 rs).2) := rfl

/-- The cache-hit test only looks at the cache, the language and the
request. -/
theorem cacheHit_congr (s1 s2 : OcrState) (r : Request)
    (hc : s1.ocrCache = s2.ocrCache) (hl : s1.ocrLanguage = s2.ocrLanguage) :
    cacheHit s1 r = cacheHit s2 r := by
  simp [cacheHit, reqKey, hc, hl]

/-- A call that arrives while a run is in flight and is not served from
the cache returns `null` (queued either for not-ready or busy),
overwrites the pending slot with its own arguments, and touches neither
the run, the engine, the cache nor the language. -/
theorem runOcrAdmit_inflight (s : OcrState) (r : Request) (fr : RunFrame)
    (hrun : s.running = some fr) (hnc : cacheHit s r = false) :
    ((runOcrAdmit s r).2 = RunResult.nullQueued ∨
     (runOcrAdmit s r).2 = RunResult.nullBusy) ∧
    (runOcrAdmit s r).1.pending = some r ∧
    (runOcrAdmit s r).1.running = some fr ∧
    (runOcrAdmit s r).1.engineInputs = s.engineInputs ∧
    (runOcrAdmit s r).1.ocrCache = s.ocrCache ∧
    (runOcrAdmit s r).1.ocrLanguage = s.ocrLanguage := by
  cases hnr : notReady s
  · rw [runOcrAdmit_busy s r hnc hnr (by simp [hrun])]
    simp [hrun]
  · rw [runOcrAdmit_queued s r hnc hnr]
    cases hf : r.forceRun <;> simp [hf, addOcrLog, hrun]

/-- C2 (amended): while a recognition is in flight, every call of a burst
that is not served from the cache returns `null` and lands in the single
pending slot, each overwriting the previous one, so after the burst only
the most recent request survives; the in-flight run is unchanged and the
engine is never invoked for any superseded request. -/
theorem c2_latest_wins (s : OcrState) (fr : RunFrame) (rs : List Request)
    (hrun : s.running = some fr) (hrs : rs ≠ [])
    (hnc : ∀ r ∈ rs, cacheHit s r = false) :
    (admitFold s rs).1.pending = some (rs.getLast hrs) ∧
    (admitFold s rs).1.running = some fr ∧
    (admitFold s rs).1.engineInputs = s.engineInputs ∧
    (admitFold s rs).1.ocrCache = s.ocrCache ∧
    (∀ res ∈ (admitFold s rs).2,
      res = RunResult.nullQueued ∨ res = RunResult.nullBusy) := by
  induction rs generalizing s with
  | nil => exact absurd rfl hrs
  | cons r rs ih =>
      have h1 := runOcrAdmit_inflight s r fr hrun (hnc r (by simp))
      cases rs with
      | nil =>
          simp only [admitFold_cons, admitFold, List.getLast_singleton]
          exact ⟨h1.2.1, h1.2.2.1, h1.2.2.2.1, h1.2.2.2.2.1, by
            intro res hres
            simp only [List.mem_cons, List.not_mem_nil, or_false] at hres
            rw [hres]
            exact h1.1⟩
      | cons r2 rs2 =>
          have hne : r2 :: rs2 ≠ [] := by simp
          have hnc2 : ∀ x ∈ r2 :: rs2, cacheHit (runOcrAdmit s r).1 x = false := by
            intro x hx
            rw [cacheHit_congr _ s x h1.2.2.2.2.1 h1.2.2.2.2.2]
            exact hnc x (by simp only [List.mem_cons] at hx ⊢; tauto)
          have hrec := ih (runOcrAdmit s r).1 h1.2.2.1 hne hnc2
          rw [admitFold_cons]
          refine ⟨?_, hrec.2.1, hrec.2.2.1.trans h1.2.2.2.1,
            hrec.2.2.2.1.trans h1.2.2.2.2.1, ?_⟩
          · rw [hrec.1]
            congr 1
          · intro res hres
            simp only [List.mem_cons] at hres
            rcases hres with hres | hres
            · rw [hres]; exact h1.1
            · exact hrec.2.2.2.2 res hres


/-- A third request, page 3. -/
def reqC : Request := { canvas := canvasA, pageNumber := 3, zoom100 := 100, forceRun := false }

/-- The event trace: worker comes up, `reqA` starts and completes with
"hello", then `reqB` starts — leaving a run in flight with `reqA`'s
result cached. -/
def c2events : List Event :=
  [Event.workerUp "eng", Event.call reqA, Event.finish (Except.ok "hello"),
   Event.call reqB]

/-- C2 counterexample: in the reachable state reached by `c2events` a
recognition is in flight, yet the `runOcr` call for `reqA` — whose
fingerprint is cached — returns the cached value rather than `null` and
leaves the pending slot untouched, contradicting the claim that any call
arriving while a recognition is in flight overwrites the pending slot
with its own arguments and returns `null`. -/
theorem c2_counterexample :
    (stepsF initialState c2events).running.isSome = true ∧
    (stepsF initialState c2events).pending = none ∧
    (runOcrAdmit (stepsF initialState c2events) reqA).2 = RunResult.cached "hello" ∧
    (runOcrAdmit (stepsF initialState c2events) reqA).2 ≠ RunResult.nullBusy ∧
    (runOcrAdmit (stepsF initialState c2events) reqA).2 ≠ RunResult.nullQueued ∧
    (runOcrAdmit (stepsF initialState c2events) reqA).1.pending = none := by
  decide

/-- The reachable state with the worker up and a run in flight on
`reqA`, nothing cached yet. -/
def midRunState : OcrState := stepsF initialState [Event.workerUp "eng", Event.call reqA]

/-- C2 witness: a burst of two non-cached calls during the in-flight run
leaves only the latest (`reqC`) in the pending slot, never reaches the
engine, and returns `null` for every call of the burst. -/
theorem c2_witness :
    (admitFold midRunState [reqB, reqC]).1.pending = some reqC ∧
    (admitFold midRunState [reqB, reqC]).1.engineInputs = midRunState.engineInputs ∧
    (∀ res ∈ (admitFold midRunState [reqB, reqC]).2,
      res = RunResult.nullQueued ∨ res = RunResult.nullBusy) := by
  have h := c2_latest_wins midRunState ⟨reqA, "1:1.00:eng"⟩ [reqB, reqC]
    (by decide) (by decide) (by decide)
  exact ⟨h.1, h.2.2.1, h.2.2.2.2⟩

/-! ## C6 — cache distinctness -/

theorem afterRecognize_cache_ok (s : OcrState) (fr : RunFrame) (t : String) :
    (afterRecognize s fr (Except.ok t)).1.ocrCache =
      alistSet s.ocrCache fr.cacheKey (jsTrim t) := by
  simp [afterRecognize, addOcrLog]

theorem afterRecognize_cache_err (s : OcrState) (fr : RunFrame) (e : JSVal) :
    (afterRecognize s fr (Except.error e)).1.ocrCache = s.ocrCache := by
  simp [afterRecognize, addOcrLog]

/-- Completion changes the cache exactly as the success/failure body
does; the drain admission never writes. -/
theorem completeRun_cache (s : OcrState) (fr : RunFrame) (out : Except JSVal String) :
    (completeRun s fr out).1.ocrCache = (afterRecognize s fr out).1.ocrCache := by
  rw [completeRun]
  cases hp : (finallyResets (afterRecognize s fr out).1).pending with
  | none => simp only [hp]; rfl
  | some p =>
      simp only [hp]
      exact (runOcrAdmit_preserves _ p).1.trans (by simp [finallyResets])

/-- Does this event, in this state, write the cache under fingerprint
`f`?  Only a successful completion of an in-flight run whose captured
key is `f` does. -/
def writesOkB (f : String) (s : OcrState) (e : Event) : Bool :=
  match e, s.running with
  | Event.finish (Except.ok _), some fr => fr.cacheKey == f
  | _, _ => false

/-- No event of the trace writes fingerprint `f`. -/
def noWriteTo (f : String) : OcrState → List Event → Bool
  | _, [] => true
  | s, e :: es => !writesOkB f s e && noWriteTo f (step s e) es

theorem initStart_cache (s : OcrState) (lang : String) :
    (initStart s lang).ocrCache = s.ocrCache := by
  rw [initStart]
  split <;> simp [addOcrLog]

theorem initSuccess_cache (s : OcrState) (lang : String) :
    (initSuccess s lang).1.ocrCache = s.ocrCache := by
  rw [initSuccess]
  split <;> simp_all [addOcrLog]

theorem onLoggerEvent_cache (s : OcrState) (st : String) (f : ℚ) :
    (onLoggerEvent s st f).ocrCache = s.ocrCache := by
  rw [onLoggerEvent]
  split
  · rfl
  · dsimp only
    cases List.find? (fun ph => strContains st.toLower ph.key) INIT_STATUS_MAP <;> rfl

/-- A step that does not write `f` keeps `f` absent. -/
theorem step_cache_none (s : OcrState) (e : Event) (f : String)
    (hw : writesOkB f s e = false) (h : alistGet s.ocrCache f = none) :
    alistGet (step s e).ocrCache f = none := by
  cases e with
  | call r =>
      simp only [step]
      rw [(runOcrAdmit_preserves s r).1]
      exact h
  | finish out =>
      simp only [step]
      cases hr : s.running with
      | none => exact h
      | some fr =>
          cases out with
          | ok t =>
              have hne : f ≠ fr.cacheKey := by
                simp only [writesOkB, hr] at hw
                intro hc
                rw [hc] at hw
                simp at hw
              rw [completeRun_cache, afterRecognize_cache_ok,
                alistGet_set_ne _ _ _ _ hne]
              exact h
          | error e2 =>
              rw [completeRun_cache, afterRecognize_cache_err]
              exact h
  | workerStart lang =>
      simp only [step]
      rw [initStart_cache]
      exact h
  | workerUp lang =>
      simp only [step]
      cases hp : (initSuccess s lang).2 with
      | none => simp only [hp]; rw [initSuccess_cache]; exact h
      | some p =>
          simp only [hp]
          rw [(runOcrAdmit_preserves _ p).1, initSuccess_cache]
          exact h
  | workerDown err =>
      simp only [step]
      simp only [initFail, addOcrLog]
      exact h
  | status st fq =>
      simp only [step]
      rw [onLoggerEvent_cache]
      exact h

/-- Along any trace that never successfully completes a run fingerprinted
`f`, fingerprint `f` stays absent from the cache. -/
theorem noWrite_keeps_none (f : String) (es : List Event) (s : OcrState)
    (h : alistGet s.ocrCache f = none) (hnw : noWriteTo f s es = true) :
    alistGet (stepsF s es).ocrCache f = none := by
  induction es generalizing s with
  | nil => exact h
  | cons e es ih =>
      simp only [noWriteTo, Bool.and_eq_true, Bool.not_eq_true'] at hnw
      exact ih (step s e) (step_cache_none s e f hnw.1 h) hnw.2

/-- C6: fingerprints are absent (`undefined`) before any successful run —
initially, and along any trace with no successful completion for them; a
successful run whose trimmed text is empty writes the empty string under
its fingerprint (present, distinguishable from absent); and a later
non-force call for such a fingerprint is served the cached "" without
invoking the engine. -/
theorem c6_cache_distinctness :
    (∀ f : String, alistGet initialState.ocrCache f = none) ∧
    (∀ (f : String) (s : OcrState) (es : List Event),
      alistGet s.ocrCache f = none → noWriteTo f s es = true →
      alistGet (stepsF s es).ocrCache f = none) ∧
    (∀ (s : OcrState) (fr : RunFrame) (t : String), jsTrim t = "" →
      alistGet (completeRun s fr (Except.ok t)).1.ocrCache fr.cacheKey = some "") ∧
    (∀ (s : OcrState) (r : Request) (out : Except JSVal String),
      r.forceRun = false → alistGet s.ocrCache (reqKey s r) = some "" →
      (runOcr s r out).2 = some "" ∧
      (runOcr s r out).1.engineInputs = s.engineInputs) := by
  refine ⟨?_, ?_, ?_, ?_⟩
  · intro f
    simp [alistGet, initialState]
  · intro f s es h hnw
    exact noWrite_keeps_none f es s h hnw
  · intro s fr t ht
    rw [completeRun_cache, afterRecognize_cache_ok, ht]
    exact alistGet_set_self _ _ _
  · intro s r out hf hv
    exact runOcr_hit_value s r out "" hf hv

/-- C6 witness: fingerprint "9:1.00:eng" stays absent across the
`c2events` trace (which never completes a run for it); completing a run
for `reqA` with whitespace-only text caches "" under its key; and a later
non-force `reqA` call is served that "". -/
theorem c6_witness :
    alistGet initialState.ocrCache "9:1.00:eng" = none ∧
    alistGet (stepsF initialState c2events).ocrCache "9:1.00:eng" = none ∧
    alistGet (completeRun runBusyState ⟨reqA, "1:1.00:eng"⟩ (Except.ok "  ")).1.ocrCache
      "1:1.00:eng" = some "" ∧
    (runOcr { readyState with ocrCache := [("1:1.00:eng", "")] } reqA
      (Except.ok "zz")).2 = some "" := by
  have h := c6_cache_distinctness
  exact ⟨h.1 "9:1.00:eng",
         h.2.1 "9:1.00:eng" initialState c2events (by decide) (by decide),
         h.2.2.1 runBusyState ⟨reqA, "1:1.00:eng"⟩ "  " (by decide),
         (h.2.2.2 _ reqA (Except.ok "zz") (by decide) (by decide)).1⟩


end ReadOcr
